import Mathlib

/-!
Verification of the NetCast audio broadcast add-on (Haiku media add-ons).

The definitions below are shallow embeddings of the functions in
`src/Audio/NetCast/NetCastEncoder.cpp`, `src/Audio/NetCast/NetCastServer.cpp`
and `src/Audio/NetCast/NetCastNode.cpp`.  Sample values produced by the
floating-point signal path are modelled as exact rationals; machine
integers are modelled as `Nat`/`Int` with explicit truncation where the
source truncates.  Socket writes are modelled as an explicit trace of
write results consumed by the drain loop.
-/

namespace NetCast

/-- Truncation of a rational toward zero, the behaviour of a C cast from a
floating value to a signed integer (`static_cast<int32>` / `static_cast<int16>`). -/
def truncQ (q : ℚ) : ℤ :=
  Int.tdiv q.num (q.den : ℤ)

/-! ## Format converter: `NetCastEncoder::ConvertToFloat`
(`NetCastEncoder.cpp` lines 15-61).

The input buffer is one of the five supported native encodings (or an
unknown format).  `frames * channels` is folded into the length of the
sample list.  Each branch mirrors the corresponding `case` of the switch. -/

/-- The raw input buffer of `ConvertToFloat`, tagged with its
`media_raw_audio_format::format` constant. -/
inductive AudioInput where
  | floatData (xs : List ℚ)   -- B_AUDIO_FLOAT
  | intData (xs : List ℤ)     -- B_AUDIO_INT, samples are int32 values
  | shortData (xs : List ℤ)   -- B_AUDIO_SHORT, samples are int16 values
  | charData (xs : List ℤ)    -- B_AUDIO_CHAR, samples are int8 values
  | ucharData (xs : List ℕ)   -- B_AUDIO_UCHAR, samples are uint8 values
  | unknownData (count : ℕ)   -- default branch: memset 0
  deriving DecidableEq

/-- `NetCastEncoder::ConvertToFloat`: normalize a native buffer to floats.
The float branch copies samples unchanged; the integer branches divide by the
full-scale divisor; the unsigned branch first subtracts 128; unknown formats
produce an all-zero buffer. -/
def convertToFloat : AudioInput → List ℚ
  | .floatData xs => xs
  | .intData xs => xs.map (fun v : ℤ => (v : ℚ) / 2147483648)
  | .shortData xs => xs.map (fun v : ℤ => (v : ℚ) / 32768)
  | .charData xs => xs.map (fun v : ℤ => (v : ℚ) / 128)
  | .ucharData xs => xs.map (fun v : ℕ => ((v : ℚ) - 128) / 128)
  | .unknownData n => List.replicate n 0

/-! ## Format converter: `NetCastEncoder::ResampleAndMix`
(`NetCastEncoder.cpp` lines 63-114). -/

/-- The clamp at `NetCastEncoder.cpp` lines 108-109:
`if (sample > 1.0f) sample = 1.0f; if (sample < -1.0f) sample = -1.0f;`. -/
def clampSample (q : ℚ) : ℚ :=
  if q > 1 then 1 else if q < -1 then -1 else q

/-- The quantization at `NetCastEncoder.cpp` line 111:
`static_cast<int16>(sample * 32767.0f)` applied to the clamped sample. -/
def quantize16 (q : ℚ) : ℤ :=
  truncQ (clampSample q * 32767)

/-- Reading `input[i]` with the index supplied as an integer; all indices
generated by `ResampleAndMix` are in range for well-formed inputs. -/
def sampleAt (input : List ℚ) (idx : ℤ) : ℚ :=
  if 0 ≤ idx then input.getD idx.toNat 0 else 0

/-- Linear interpolation `s1 + frac * (s2 - s1)`. -/
def lerp (s1 s2 frac : ℚ) : ℚ :=
  s1 + frac * (s2 - s1)

/-- One output sample of `ResampleAndMix`: the four channel-mapping branches
(`NetCastEncoder.cpp` lines 84-106) evaluated at source frame `srcIndex`
with interpolation fraction `frac`, before clamping and quantization. -/
def mixSample (input : List ℚ) (inputFrames : ℕ) (inputChannels : ℕ)
    (srcIndex : ℤ) (frac : ℚ) (ch : ℕ) (outputChannels : ℕ) : ℚ :=
  if inputChannels = 1 ∧ outputChannels = 2 then
    let s1 := sampleAt input srcIndex
    let s2 := if srcIndex + 1 < (inputFrames : ℤ) then sampleAt input (srcIndex + 1) else s1
    lerp s1 s2 frac
  else if inputChannels = 2 ∧ outputChannels = 1 then
    let left1 := sampleAt input (srcIndex * 2)
    let right1 := sampleAt input (srcIndex * 2 + 1)
    let left2 := if srcIndex + 1 < (inputFrames : ℤ) then sampleAt input ((srcIndex + 1) * 2) else left1
    let right2 := if srcIndex + 1 < (inputFrames : ℤ) then sampleAt input ((srcIndex + 1) * 2 + 1) else right1
    let mono1 := (left1 + right1) * (1 / 2)
    let mono2 := (left2 + right2) * (1 / 2)
    lerp mono1 mono2 frac
  else if inputChannels = outputChannels then
    let srcCh : ℕ := if ch < inputChannels then ch else 0
    let s1 := sampleAt input (srcIndex * inputChannels + srcCh)
    let s2 := if srcIndex + 1 < (inputFrames : ℤ) then sampleAt input ((srcIndex + 1) * inputChannels + srcCh) else s1
    lerp s1 s2 frac
  else
    let srcCh : ℕ := ch % inputChannels
    let s1 := sampleAt input (srcIndex * inputChannels + srcCh)
    let s2 := if srcIndex + 1 < (inputFrames : ℤ) then sampleAt input ((srcIndex + 1) * inputChannels + srcCh) else s1
    lerp s1 s2 frac

/-- The number of output frames computed at `NetCastEncoder.cpp` line 69:
`*outputFrames = static_cast<int32>(inputFrames * ratio)` with
`ratio = outputRate / inputRate`. -/
def outputFramesFor (inputFrames : ℕ) (inputRate outputRate : ℚ) : ℕ :=
  (truncQ ((inputFrames : ℚ) * (outputRate / inputRate))).toNat

/-- `NetCastEncoder::ResampleAndMix`: resample `input` (interleaved,
`inputFrames` frames of `inputChannels` channels) to `outputChannels`
channels at `outputRate`, producing interleaved quantized 16-bit samples. -/
def resampleAndMix (input : List ℚ) (inputFrames : ℕ) (inputChannels : ℕ)
    (inputRate : ℚ) (outputRate : ℚ) (outputChannels : ℕ) : List ℤ :=
  let r := outputRate / inputRate
  let outFrames := outputFramesFor inputFrames inputRate outputRate
  (List.range outFrames).flatMap (fun i =>
    let srcPos := (i : ℚ) / r
    let srcIndex0 := truncQ srcPos
    let srcIndex := if (inputFrames : ℤ) - 1 ≤ srcIndex0 then (inputFrames : ℤ) - 1 else srcIndex0
    let frac := if (inputFrames : ℤ) - 1 ≤ srcIndex0 then 0 else srcPos - (srcIndex0 : ℚ)
    (List.range outputChannels).map (fun ch =>
      quantize16 (mixSample input inputFrames inputChannels srcIndex frac ch outputChannels)))

/-! ## Encoder state models: `PCMEncoder` and `MP3Encoder`
(`NetCastEncoder.cpp` lines 116-221 and 225-477). -/

namespace PCMEncoder

/-- The persistent state of `PCMEncoder` that survives between
`EncodeBuffer` calls: only the running byte counter `fDataSize`
(the scratch buffers never carry data across calls). -/
structure State where
  dataSize : ℕ
  deriving DecidableEq

/-- `PCMEncoder::EncodeBuffer` (`NetCastEncoder.cpp` lines 156-208):
convert to float, resample, and if the resampled chunk fits in the
destination return it (as little-endian int16 samples) and account it in
`fDataSize`; if it does not fit, return `0` and write nothing.
Result: (return value, samples written to `outBuffer`, new state). -/
def encodeBuffer (st : State) (input : AudioInput) (inputFrames : ℕ)
    (inputChannels : ℕ) (inputRate : ℚ) (outputRate : ℚ)
    (outputChannels : ℕ) (outBufferSize : ℕ) : ℕ × List ℤ × State :=
  let floats := convertToFloat input
  let pcm := resampleAndMix floats inputFrames inputChannels inputRate outputRate outputChannels
  let outFrames := outputFramesFor inputFrames inputRate outputRate
  let dataSize := outFrames * outputChannels * 2
  if outBufferSize < dataSize then
    (0, [], st)
  else
    (dataSize, pcm, { dataSize := st.dataSize + dataSize })

end PCMEncoder

namespace MP3Encoder

/-- The carry-over buffer state of `MP3Encoder`: the bytes currently held
in `fInternalBuffer` (`buf`, the first `fInternalBufferUsed` bytes) and its
capacity `fInternalBufferSize` (`cap`, 8192 after `SetOutputFormat`). -/
structure State where
  buf : List ℕ
  cap : ℕ
  deriving DecidableEq

/-- The carry-over bookkeeping of `MP3Encoder::EncodeBuffer`
(`NetCastEncoder.cpp` lines 388-427), with `encoded` standing for the bytes
the LAME library produced into `tempMP3Buffer` on this call.  If appending
`encoded` would overflow the carry-over buffer, up to `outBufferSize` of
the previously buffered bytes are returned and `encoded` is not stored;
otherwise `encoded` is appended and up to `outBufferSize` of the oldest
buffered bytes are returned.  Result: (bytes returned, new state). -/
def encodeBuffer (st : State) (encoded : List ℕ) (outBufferSize : ℕ) :
    List ℕ × State :=
  if 0 < encoded.length then
    if st.cap < st.buf.length + encoded.length then
      let toSend := min st.buf.length outBufferSize
      (st.buf.take toSend, { st with buf := st.buf.drop toSend })
    else
      let buf2 := st.buf ++ encoded
      let toSend := min buf2.length outBufferSize
      (buf2.take toSend, { st with buf := buf2.drop toSend })
  else
    if 0 < st.buf.length then
      let toSend := min st.buf.length outBufferSize
      (st.buf.take toSend, { st with buf := st.buf.drop toSend })
    else
      ([], st)

end MP3Encoder

/-! ## Broadcast server: `NetCastServer`
(`NetCastServer.cpp`).  A client's ring buffer and flags, the per-chunk
append (`AddToClientBuffer`), the non-blocking drain loop
(`FlushClientBuffer`), the per-client part of `BroadcastData`, buffer
clearing (`ClearClientBuffers`) and send-buffer sizing
(`CalculateOptimalSendBuffer`). -/

/-- `kMaxFailedSends` (`NetCastServer.h` line 22). -/
def kMaxFailedSends : ℕ := 10

/-- The per-client state of `NetCastServer::ClientInfo` that the broadcast
path reads and writes: the fixed-capacity circular byte buffer with its
cursors and occupancy, the header-sent flag and the consecutive-failure
counter. -/
structure ClientInfo where
  bufferSize : ℕ
  dataBuffer : List ℕ
  writePos : ℕ
  readPos : ℕ
  dataInBuffer : ℕ
  headerSent : Bool
  failedSendCount : ℕ
  deriving DecidableEq

/-- One iteration of the byte-copy loop of `AddToClientBuffer`
(`NetCastServer.cpp` lines 195-198). -/
def writeByte (c : ClientInfo) (b : ℕ) : ClientInfo :=
  { c with
    dataBuffer := c.dataBuffer.set c.writePos b
    writePos := (c.writePos + 1) % c.bufferSize }

/-- `NetCastServer::AddToClientBuffer` (`NetCastServer.cpp` lines 184-203):
if appending `data` would exceed the buffer capacity, fail (`none`,
the source returns `false`) without copying anything; otherwise copy every
byte at the write cursor and raise the occupancy by the chunk length. -/
def addToClientBuffer (c : ClientInfo) (data : List ℕ) : Option ClientInfo :=
  if c.bufferSize < c.dataInBuffer + data.length then
    none
  else
    let c2 := data.foldl writeByte c
    some { c2 with dataInBuffer := c.dataInBuffer + data.length }

/-- The result of one non-blocking `socket->Write` in the drain loop:
`sent n` for a return value of `n ≥ 0` bytes, `blockErr` for a negative
return with `errno` EWOULDBLOCK/EAGAIN, `fatalErr` for a negative return
with any other `errno`. -/
inductive WriteRes where
  | sent (n : ℕ)
  | blockErr
  | fatalErr
  deriving DecidableEq

/-- The cursor update after the socket accepted `n` bytes
(`NetCastServer.cpp` lines 219-222). -/
def advanceRead (c : ClientInfo) (n : ℕ) : ClientInfo :=
  { c with
    readPos := (c.readPos + n) % c.bufferSize
    dataInBuffer := c.dataInBuffer - n
    failedSendCount := 0 }

/-- The `while (client->dataInBuffer > 0)` drain loop of
`NetCastServer::FlushClientBuffer` (`NetCastServer.cpp` lines 211-238),
consuming one element of the write trace `ws` per iteration.  Returns the
client state and the `shouldDisconnect` flag set by the loop. -/
def flushLoop : ClientInfo → List WriteRes → ClientInfo × Bool
  | c, [] => (c, false)
  | c, w :: ws =>
    if c.dataInBuffer = 0 then
      (c, false)
    else
      let contiguousRun := c.bufferSize - c.readPos
      let toSend := min contiguousRun c.dataInBuffer
      match w with
      | .sent n =>
        if 0 < n then
          if n < toSend then
            (advanceRead c n, false)
          else
            flushLoop (advanceRead c n) ws
        else
          (c, true)
      | .blockErr => (c, false)
      | .fatalErr => (c, true)

/-- `NetCastServer::FlushClientBuffer` (`NetCastServer.cpp` lines 205-248):
the drain loop followed by the backpressure check
`dataInBuffer > bufferSize * 0.9` (exact over the integers as
`10 * dataInBuffer > 9 * bufferSize`) that increments the
consecutive-failure counter and requests disconnection once it reaches
`kMaxFailedSends`. -/
def flushClientBuffer (c : ClientInfo) (ws : List WriteRes) : ClientInfo × Bool :=
  let r := flushLoop c ws
  if 9 * r.1.bufferSize < 10 * r.1.dataInBuffer then
    let c2 := { r.1 with failedSendCount := r.1.failedSendCount + 1 }
    (c2, r.2 || decide (kMaxFailedSends ≤ c2.failedSendCount))
  else
    r

/-- The body of the per-client broadcast after the header check
(`NetCastServer.cpp` lines 315-324): append the chunk (disconnecting on
overflow), then drain, then disconnect if the drain requested it.
`none` means the client was disconnected. -/
def broadcastBody (c : ClientInfo) (chunk : List ℕ) (ws : List WriteRes) :
    Option ClientInfo :=
  match addToClientBuffer c chunk with
  | none => none
  | some c1 =>
    let r := flushClientBuffer c1 ws
    if r.2 then none else some r.1

/-- The per-client step of `NetCastServer::BroadcastData`
(`NetCastServer.cpp` lines 278-325): if the stream header is configured and
not yet sent to this client, write it synchronously (`hdrRes` is the
`socket->Write` return value); the flag is set only when the write returned
exactly the header size, and any other return disconnects the client before
its ring buffer is touched. -/
def broadcastToClient (header : List ℕ) (hdrRes : ℤ) (c : ClientInfo)
    (chunk : List ℕ) (ws : List WriteRes) : Option ClientInfo :=
  if c.headerSent = false ∧ 0 < header.length then
    if hdrRes = (header.length : ℤ) then
      broadcastBody { c with headerSent := true } chunk ws
    else
      none
  else
    broadcastBody c chunk ws

/-- `NetCastServer::ClearClientBuffers` (`NetCastServer.cpp` lines 159-182):
reset every registered client's ring-buffer cursors, occupancy and failure
counter.  In the `src/` snapshot this function has no caller. -/
def clearClientBuffers (clients : List ClientInfo) : List ClientInfo :=
  clients.map (fun c =>
    { c with writePos := 0, readPos := 0, dataInBuffer := 0, failedSendCount := 0 })

/-- The pre-multiplier buffer size of `CalculateOptimalSendBuffer`
(`NetCastServer.cpp` lines 363-377), selected by MIME type. -/
def sendBufferBase (mimeType : String) (bitrate : ℤ) (sampleRate : ℚ)
    (channels : ℤ) : ℤ :=
  if mimeType = "audio/wav" then
    truncQ (sampleRate * (channels : ℚ) * 2 * (1 / 2))
  else if mimeType = "audio/mpeg" then
    Int.tdiv (bitrate * 1024) 8 * 1
  else
    65536

/-- The buffer size after the multiplier is applied
(`NetCastServer.cpp` line 379): `static_cast<int32>(bufferSize * fBufferMultiplier)`. -/
def sendBufferScaled (mimeType : String) (bitrate : ℤ) (sampleRate : ℚ)
    (channels : ℤ) (bufferMultiplier : ℚ) : ℤ :=
  truncQ ((sendBufferBase mimeType bitrate sampleRate channels : ℚ) * bufferMultiplier)

/-- `NetCastServer::CalculateOptimalSendBuffer`
(`NetCastServer.cpp` lines 360-392): the scaled size clamped first below at
`MIN_BUFFER = 8192`, then above at `MAX_BUFFER = 524288`. -/
def calculateOptimalSendBuffer (mimeType : String) (bitrate : ℤ)
    (sampleRate : ℚ) (channels : ℤ) (bufferMultiplier : ℚ) : ℤ :=
  let scaled := sendBufferScaled mimeType bitrate sampleRate channels bufferMultiplier
  let b1 := if scaled < 8192 then 8192 else scaled
  if 524288 < b1 then 524288 else b1

/-! ## Node: `NetCastNode::PrepareWAVHeader` and `NetCastNode::UpdateEncoder`
(`NetCastNode.cpp` lines 708-797). -/

/-- Little-endian byte layout of a 16-bit value. -/
def le16 (v : ℕ) : List ℕ :=
  [v % 256, v / 256 % 256]

/-- Little-endian byte layout of a 32-bit value. -/
def le32 (v : ℕ) : List ℕ :=
  [v % 256, v / 256 % 256, v / 65536 % 256, v / 16777216 % 256]

/-- `maxSize = 0xFFFFFFFF - 8` (`NetCastNode.cpp` line 778). -/
def wavMaxSize : ℕ := 0xFFFFFFFF - 8

/-- `NetCastNode::PrepareWAVHeader` (`NetCastNode.cpp` lines 767-797): the
44-byte streaming WAV header for the given sample rate and input channel
count (clamped to 1 or 2 channels). -/
def prepareWAVHeader (sampleRate : ℕ) (channelCount : ℕ) : List ℕ :=
  let channels := if 2 ≤ channelCount then 2 else 1
  [0x52, 0x49, 0x46, 0x46] ++ le32 wavMaxSize
    ++ [0x57, 0x41, 0x56, 0x45]
    ++ [0x66, 0x6D, 0x74, 0x20] ++ le32 16 ++ le16 1 ++ le16 channels
    ++ le32 (sampleRate % 4294967296)
    ++ le32 (sampleRate * channels * 2 % 4294967296)
    ++ le16 (channels * 2) ++ le16 16
    ++ [0x64, 0x61, 0x74, 0x61] ++ le32 (wavMaxSize - 36)

/-- Decode a little-endian byte list back to the value it encodes. -/
def decodeLE (bs : List ℕ) : ℕ :=
  bs.foldr (fun b acc => b + 256 * acc) 0

/-- The state `NetCastNode::UpdateEncoder` acts on: the server's registered
clients and advertised stream header/MIME type, plus the node's codec
selection. -/
structure NodeState where
  clients : List ClientInfo
  streamHeader : List ℕ
  mimeType : String
  codecIsPCM : Bool
  deriving DecidableEq

/-- `NetCastNode::UpdateEncoder` (`NetCastNode.cpp` lines 708-765): the
encoder is reinitialized for the new format, the stream info is updated,
and the stream header is rebuilt (WAV header for the PCM codec, none
otherwise).  The function performs no call to `Flush`, no broadcast, and
no call to `ClearClientBuffers`: the registered clients are untouched. -/
def updateEncoder (s : NodeState) (sampleRate : ℕ) (channelCount : ℕ) : NodeState :=
  { s with
    mimeType := if s.codecIsPCM then "audio/wav" else "audio/mpeg"
    streamHeader := if s.codecIsPCM then prepareWAVHeader sampleRate channelCount else [] }

/-! ## Shared helper lemmas -/

/-- `truncQ` is the identity on integers. -/
lemma truncQ_intCast (n : ℤ) : truncQ (n : ℚ) = n := by
  simp [truncQ]

/-- `truncQ` is the floor for nonnegative rationals and the ceiling for
negative ones (truncation toward zero). -/
lemma truncQ_eq_floor_or_ceil (q : ℚ) : truncQ q = if 0 ≤ q then ⌊q⌋ else ⌈q⌉ := by
  rw [truncQ]
  split
  case isTrue h =>
    have hnum : 0 ≤ q.num := Rat.num_nonneg.mpr h
    rw [Int.tdiv_eq_ediv hnum (by positivity), Rat.floor_def]
  case isFalse h =>
    have hfl : (-q).num.tdiv ((-q).den : ℤ) = ⌊-q⌋ := by
      have hnum : 0 ≤ (-q).num := by
        rw [Rat.num_neg_eq_neg_num]
        have : q.num ≤ 0 := Rat.num_nonpos.mpr (le_of_not_le h)
        omega
      rw [Int.tdiv_eq_ediv hnum (by positivity), Rat.floor_def]
    rw [Rat.num_neg_eq_neg_num, Rat.den_neg_eq_den, Int.neg_tdiv] at hfl
    have hc : ⌈q⌉ = -⌊-q⌋ := by
      rw [← Int.ceil_neg, neg_neg]
    omega

/-- Truncation toward zero maps `[-n, n]` into `[-n, n]`. -/
lemma truncQ_bounds {q : ℚ} {n : ℤ} (h0 : 0 ≤ n) (h1 : -(n : ℚ) ≤ q) (h2 : q ≤ (n : ℚ)) :
    -n ≤ truncQ q ∧ truncQ q ≤ n := by
  rw [truncQ_eq_floor_or_ceil]
  split
  case isTrue h =>
    refine ⟨le_trans (by omega) (Int.floor_nonneg.mpr h), ?_⟩
    calc ⌊q⌋ ≤ ⌊(n : ℚ)⌋ := Int.floor_le_floor h2
    _ = n := Int.floor_intCast n
  case isFalse h =>
    rw [not_le] at h
    constructor
    · calc -n = ⌈(-(n : ℚ) : ℚ)⌉ := by rw [← Int.cast_neg, Int.ceil_intCast]
      _ ≤ ⌈q⌉ := Int.ceil_le_ceil h1
    · have : ⌈q⌉ ≤ 0 := Int.ceil_le.mpr (by exact_mod_cast h.le)
      omega

/-- The clamp-then-quantize step of `ResampleAndMix` always lands in
`[-32767, 32767]`. -/
lemma quantize16_bounds (q : ℚ) : -32767 ≤ quantize16 q ∧ quantize16 q ≤ 32767 := by
  rw [quantize16]
  have hc : -1 ≤ clampSample q ∧ clampSample q ≤ 1 := by
    rw [clampSample]
    split
    case isTrue => norm_num
    case isFalse h1 =>
      split
      case isTrue => norm_num
      case isFalse h2 => exact ⟨not_lt.mp h2, not_lt.mp h1⟩
  refine truncQ_bounds (by norm_num) ?_ ?_
  · push_cast
    nlinarith [hc.1, hc.2]
  · push_cast
    nlinarith [hc.1, hc.2]

/-- A quotient of a value in `[-d, d]` by positive `d` lies in `[-1, 1]`. -/
lemma div_unit_range {x d : ℚ} (hd : 0 < d) (h1 : -d ≤ x) (h2 : x ≤ d) :
    -1 ≤ x / d ∧ x / d ≤ 1 := by
  constructor
  · rw [le_div_iff₀ hd]
    linarith
  · rw [div_le_one hd]
    exact h2

/-! ## Claim C4 -/

/-- C4 counterexample: the claim "every float produced by `ConvertToFloat`
lies in [-1, 1], and the all-zero byte pattern yields output 0" fails on the
concrete inputs below.  The `B_AUDIO_FLOAT` branch copies samples unchanged,
so the out-of-range input sample `2.0` is emitted as `2.0 ∉ [-1, 1]`; and
for `B_AUDIO_UCHAR` the all-zero byte pattern (sample value `0`) is mapped
to `(0 - 128)/128 = -1`, not `0`. -/
theorem convertToFloat_not_always_unit_range :
    convertToFloat (.floatData [2]) = [2] ∧ ¬ ((2 : ℚ) ≤ 1) ∧
    convertToFloat (.ucharData [0]) = [-1] ∧ ((-1 : ℚ) ≠ 0) := by
  refine ⟨rfl, by norm_num, ?_, by norm_num⟩
  norm_num [convertToFloat]

/-- C4 (amended): `ConvertToFloat` copies `B_AUDIO_FLOAT` input unchanged
(so its output is in [-1, 1] exactly when the input is); for the four
integer encodings with in-range samples every output lies in [-1, 1];
all-zero integer samples map to 0 for the three signed encodings, while for
the unsigned 8-bit encoding the midpoint sample 128 maps to 0. -/
theorem convertToFloat_range_spec (fs : List ℚ) (xs ys zs : List ℤ) (us : List ℕ) :
    (convertToFloat (.floatData fs) = fs) ∧
    ((∀ v ∈ xs, -2147483648 ≤ v ∧ v ≤ 2147483647) →
       ∀ q ∈ convertToFloat (.intData xs), -1 ≤ q ∧ q ≤ 1) ∧
    ((∀ v ∈ ys, -32768 ≤ v ∧ v ≤ 32767) →
       ∀ q ∈ convertToFloat (.shortData ys), -1 ≤ q ∧ q ≤ 1) ∧
    ((∀ v ∈ zs, -128 ≤ v ∧ v ≤ 127) →
       ∀ q ∈ convertToFloat (.charData zs), -1 ≤ q ∧ q ≤ 1) ∧
    ((∀ v ∈ us, v ≤ 255) →
       ∀ q ∈ convertToFloat (.ucharData us), -1 ≤ q ∧ q ≤ 1) ∧
    ((∀ v ∈ xs, v = 0) → ∀ q ∈ convertToFloat (.intData xs), q = 0) ∧
    ((∀ v ∈ ys, v = 0) → ∀ q ∈ convertToFloat (.shortData ys), q = 0) ∧
    ((∀ v ∈ zs, v = 0) → ∀ q ∈ convertToFloat (.charData zs), q = 0) ∧
    ((∀ v ∈ us, v = 128) → ∀ q ∈ convertToFloat (.ucharData us), q = 0) := by
  refine ⟨rfl, ?_, ?_, ?_, ?_, ?_, ?_, ?_, ?_⟩
  · intro hb q hq
    obtain ⟨v, hv, rfl⟩ := List.mem_map.mp hq
    have hvb := hb v hv
    refine div_unit_range (by norm_num) ?_ ?_
    · have : ((-2147483648 : ℤ) : ℚ) ≤ (v : ℚ) := by exact_mod_cast hvb.1
      push_cast at this ⊢
      linarith
    · have : (v : ℚ) ≤ ((2147483647 : ℤ) : ℚ) := by exact_mod_cast hvb.2
      push_cast at this ⊢
      linarith
  · intro hb q hq
    obtain ⟨v, hv, rfl⟩ := List.mem_map.mp hq
    have hvb := hb v hv
    refine div_unit_range (by norm_num) ?_ ?_
    · have : ((-32768 : ℤ) : ℚ) ≤ (v : ℚ) := by exact_mod_cast hvb.1
      push_cast at this ⊢
      linarith
    · have : (v : ℚ) ≤ ((32767 : ℤ) : ℚ) := by exact_mod_cast hvb.2
      push_cast at this ⊢
      linarith
  · intro hb q hq
    obtain ⟨v, hv, rfl⟩ := List.mem_map.mp hq
    have hvb := hb v hv
    refine div_unit_range (by norm_num) ?_ ?_
    · have : ((-128 : ℤ) : ℚ) ≤ (v : ℚ) := by exact_mod_cast hvb.1
      push_cast at this ⊢
      linarith
    · have : (v : ℚ) ≤ ((127 : ℤ) : ℚ) := by exact_mod_cast hvb.2
      push_cast at this ⊢
      linarith
  · intro hb q hq
    obtain ⟨v, hv, rfl⟩ := List.mem_map.mp hq
    have hvb := hb v hv
    refine div_unit_range (by norm_num) ?_ ?_
    · have h0 : (0 : ℚ) ≤ (v : ℚ) := by positivity
      linarith
    · have : (v : ℚ) ≤ ((255 : ℕ) : ℚ) := by exact_mod_cast hvb
      push_cast at this ⊢
      linarith
  · intro hb q hq
    obtain ⟨v, hv, rfl⟩ := List.mem_map.mp hq
    rw [hb v hv]
    norm_num
  · intro hb q hq
    obtain ⟨v, hv, rfl⟩ := List.mem_map.mp hq
    rw [hb v hv]
    norm_num
  · intro hb q hq
    obtain ⟨v, hv, rfl⟩ := List.mem_map.mp hq
    rw [hb v hv]
    norm_num
  · intro hb q hq
    obtain ⟨v, hv, rfl⟩ := List.mem_map.mp hq
    rw [hb v hv]
    norm_num

/-- C4 witness: the amended range statement applied at the full-scale
negative `int32` sample and at the unsigned midpoint sample. -/
theorem convertToFloat_range_spec_witness :
    (-1 ≤ ((-2147483648 : ℤ) : ℚ) / 2147483648 ∧
      ((-2147483648 : ℤ) : ℚ) / 2147483648 ≤ 1) ∧
    (((128 : ℕ) : ℚ) - 128) / 128 = 0 :=
  ⟨(convertToFloat_range_spec [] [(-2147483648 : ℤ)] [] [] []).2.1 (by decide) _
      (List.mem_map.mpr ⟨-2147483648, List.mem_singleton.mpr rfl, rfl⟩),
   (convertToFloat_range_spec [] [] [] [] [128]).2.2.2.2.2.2.2.2 (by decide) _
      (List.mem_map.mpr ⟨128, List.mem_singleton.mpr rfl, rfl⟩)⟩

/-! ## Claim C10 -/

/-- C10: every 16-bit sample produced by `ResampleAndMix` lies in
`[-32767, 32767]` (so the value `-32768` is never produced), because each
interpolated sample is clamped to `[-1, 1]` before being scaled by `32767`
and truncated — for every input buffer, rate pair and channel-count pair. -/
theorem resampleAndMix_sample_range (input : List ℚ) (inputFrames inputChannels : ℕ)
    (inputRate outputRate : ℚ) (outputChannels : ℕ) (i : ℕ) :
    -32767 ≤ (resampleAndMix input inputFrames inputChannels inputRate
        outputRate outputChannels).getD i 0 ∧
      (resampleAndMix input inputFrames inputChannels inputRate
        outputRate outputChannels).getD i 0 ≤ 32767 := by
  have hall : ∀ s ∈ resampleAndMix input inputFrames inputChannels inputRate
      outputRate outputChannels, -32767 ≤ s ∧ s ≤ 32767 := by
    intro s hs
    simp only [resampleAndMix, List.mem_flatMap, List.mem_map, List.mem_range] at hs
    obtain ⟨j, _, ch, _, rfl⟩ := hs
    exact quantize16_bounds _
  rw [List.getD_eq_getElem?_getD]
  rcases hx : (resampleAndMix input inputFrames inputChannels inputRate
      outputRate outputChannels)[i]? with _ | x
  · norm_num [Option.getD_none]
  · simp only [Option.getD_some]
    exact hall x (List.getElem?_mem hx)

/-! ## Claim C5 -/

/-- C5 counterexample: the claim that bytes 40-43 of the WAV header carry
the same placeholder `0xFFFFFFF7` as bytes 4-7 is false; `PrepareWAVHeader`
writes `maxSize - 36 = 0xFFFFFFD3` there (`NetCastNode.cpp` line 794). -/
theorem prepareWAVHeader_data_size_differs :
    decodeLE ((prepareWAVHeader 44100 2).drop 40) = 0xFFFFFFD3 ∧
    (0xFFFFFFD3 : ℕ) ≠ 0xFFFFFFF7 ∧
    (prepareWAVHeader 44100 2).drop 40 ≠ le32 0xFFFFFFF7 := by
  decide

/-- C5 (amended): for every sample rate (below `2^32`) and channel count,
the 44-byte header built by `PrepareWAVHeader` is laid out little-endian as
"RIFF", size `0xFFFFFFF7`, "WAVE", a 16-byte "fmt " chunk with format tag 1,
channel count at bytes 22-23, sample rate at bytes 24-27, byte rate, block
align, 16 bits per sample, then "data" at bytes 36-39 — with the data chunk
length at bytes 40-43 equal to `0xFFFFFFF7 - 36 = 0xFFFFFFD3`, not to the
placeholder itself. -/
theorem prepareWAVHeader_layout (sampleRate channelCount : ℕ)
    (hr : sampleRate < 4294967296) :
    (prepareWAVHeader sampleRate channelCount).length = 44 ∧
    (prepareWAVHeader sampleRate channelCount).take 4 = [0x52, 0x49, 0x46, 0x46] ∧
    decodeLE (((prepareWAVHeader sampleRate channelCount).drop 4).take 4) = 0xFFFFFFF7 ∧
    ((prepareWAVHeader sampleRate channelCount).drop 8).take 4 = [0x57, 0x41, 0x56, 0x45] ∧
    ((prepareWAVHeader sampleRate channelCount).drop 12).take 4 = [0x66, 0x6D, 0x74, 0x20] ∧
    decodeLE (((prepareWAVHeader sampleRate channelCount).drop 16).take 4) = 16 ∧
    decodeLE (((prepareWAVHeader sampleRate channelCount).drop 20).take 2) = 1 ∧
    decodeLE (((prepareWAVHeader sampleRate channelCount).drop 22).take 2)
      = (if 2 ≤ channelCount then 2 else 1) ∧
    decodeLE (((prepareWAVHeader sampleRate channelCount).drop 24).take 4) = sampleRate ∧
    decodeLE (((prepareWAVHeader sampleRate channelCount).drop 28).take 4)
      = sampleRate * (if 2 ≤ channelCount then 2 else 1) * 2 % 4294967296 ∧
    decodeLE (((prepareWAVHeader sampleRate channelCount).drop 32).take 2)
      = (if 2 ≤ channelCount then 2 else 1) * 2 ∧
    decodeLE (((prepareWAVHeader sampleRate channelCount).drop 34).take 2) = 16 ∧
    ((prepareWAVHeader sampleRate channelCount).drop 36).take 4 = [0x64, 0x61, 0x74, 0x61] ∧
    decodeLE ((prepareWAVHeader sampleRate channelCount).drop 40) = 0xFFFFFFD3 := by
  set ch := if 2 ≤ channelCount then 2 else 1 with hch
  have hch2 : ch = 2 ∨ ch = 1 := by rw [hch]; split <;> simp
  simp only [prepareWAVHeader, le16, le32, wavMaxSize, decodeLE, ← hch,
    List.cons_append, List.nil_append]
  norm_num [List.take, List.drop]
  omega

/-- C5 witness: the amended layout statement applied at 44100 Hz, 2 channels. -/
theorem prepareWAVHeader_layout_witness :
    decodeLE (((prepareWAVHeader 44100 2).drop 22).take 2) = 2 ∧
    decodeLE (((prepareWAVHeader 44100 2).drop 24).take 4) = 44100 ∧
    decodeLE ((prepareWAVHeader 44100 2).drop 40) = 0xFFFFFFD3 := by
  have h := prepareWAVHeader_layout 44100 2 (by decide)
  refine ⟨?_, h.2.2.2.2.2.2.2.2.1, h.2.2.2.2.2.2.2.2.2.2.2.2.2⟩
  have := h.2.2.2.2.2.2.2.1
  simpa using this

/-! ## Claim C2 -/

/-- Fields of a client untouched by the byte-copy loop of
`AddToClientBuffer`. -/
lemma foldl_writeByte_fields (data : List ℕ) :
    ∀ c : ClientInfo, (data.foldl writeByte c).bufferSize = c.bufferSize ∧
      (data.foldl writeByte c).dataInBuffer = c.dataInBuffer := by
  induction data with
  | nil => intro c; exact ⟨rfl, rfl⟩
  | cons b bs ih =>
    intro c
    simpa [List.foldl_cons, writeByte] using ih (writeByte c b)

/-- The drain loop never grows a buffer and never resizes it. -/
lemma flushLoop_fields (ws : List WriteRes) :
    ∀ c : ClientInfo, (flushLoop c ws).1.bufferSize = c.bufferSize ∧
      (flushLoop c ws).1.dataInBuffer ≤ c.dataInBuffer := by
  induction ws with
  | nil => intro c; exact ⟨rfl, le_refl _⟩
  | cons w ws ih =>
    intro c
    rw [flushLoop]
    split
    · exact ⟨rfl, le_refl _⟩
    · match w with
      | .sent n =>
        simp only
        split
        · split
          · exact ⟨rfl, Nat.sub_le _ _⟩
          · refine ⟨(ih (advanceRead c n)).1,
              le_trans (ih (advanceRead c n)).2 (Nat.sub_le _ _)⟩
        · exact ⟨rfl, le_refl _⟩
      | .blockErr => exact ⟨rfl, le_refl _⟩
      | .fatalErr => exact ⟨rfl, le_refl _⟩

/-- `FlushClientBuffer` never grows a buffer and never resizes it. -/
lemma flushClientBuffer_fields (c : ClientInfo) (ws : List WriteRes) :
    (flushClientBuffer c ws).1.bufferSize = c.bufferSize ∧
    (flushClientBuffer c ws).1.dataInBuffer ≤ c.dataInBuffer := by
  rw [flushClientBuffer]
  have h := flushLoop_fields ws c
  split
  · exact ⟨h.1, h.2⟩
  · exact h

/-- A surviving client of `broadcastBody` keeps its occupancy within its
capacity. -/
lemma broadcastBody_occupancy (c : ClientInfo) (chunk : List ℕ)
    (ws : List WriteRes) (c2 : ClientInfo)
    (h2 : broadcastBody c chunk ws = some c2) :
    c2.dataInBuffer ≤ c2.bufferSize := by
  rw [broadcastBody] at h2
  match hadd : addToClientBuffer c chunk with
  | none => rw [hadd] at h2; exact absurd h2 (by simp)
  | some c1 =>
    rw [hadd] at h2
    simp only at h2
    split at h2
    · exact absurd h2 (by simp)
    · rw [Option.some_inj] at h2
      subst h2
      have hocc : c1.dataInBuffer ≤ c1.bufferSize := by
        rw [addToClientBuffer] at hadd
        split at hadd
        · exact absurd hadd (by simp)
        · next hno =>
          have hf := foldl_writeByte_fields chunk c
          rw [Option.some_inj] at hadd
          subst hadd
          simp only [hf.1]
          omega
      have hfl := flushClientBuffer_fields c1 ws
      omega

/-- C2: a client's ring buffer occupancy never exceeds its capacity.  If the
chunk does not fit, `AddToClientBuffer` fails without copying anything and
the per-client broadcast step removes the client; if it fits, the whole
chunk is accepted at once (occupancy grows by exactly the chunk length,
staying within capacity), and every client that survives the per-client
broadcast step — header write included — still satisfies
`dataInBuffer ≤ bufferSize`. -/
theorem broadcast_buffer_capacity (c : ClientInfo) (chunk : List ℕ) (ws : List WriteRes) :
    (c.bufferSize < c.dataInBuffer + chunk.length →
       addToClientBuffer c chunk = none ∧ broadcastBody c chunk ws = none) ∧
    (∀ c1, addToClientBuffer c chunk = some c1 →
       c1.dataInBuffer = c.dataInBuffer + chunk.length ∧
       c1.dataInBuffer ≤ c.bufferSize ∧ c1.bufferSize = c.bufferSize) ∧
    (∀ c2, broadcastBody c chunk ws = some c2 → c2.dataInBuffer ≤ c2.bufferSize) ∧
    (∀ header hdrRes c3, broadcastToClient header hdrRes c chunk ws = some c3 →
       c3.dataInBuffer ≤ c3.bufferSize) := by
  refine ⟨?_, ?_, fun c2 h2 => broadcastBody_occupancy c chunk ws c2 h2, ?_⟩
  · intro hov
    have h1 : addToClientBuffer c chunk = none := by
      rw [addToClientBuffer, if_pos hov]
    exact ⟨h1, by rw [broadcastBody, h1]⟩
  · intro c1 h1
    rw [addToClientBuffer] at h1
    split at h1
    · exact absurd h1 (by simp)
    · next hno =>
      have hfit : c.dataInBuffer + chunk.length ≤ c.bufferSize := not_lt.mp hno
      have hf := foldl_writeByte_fields chunk c
      rw [Option.some_inj] at h1
      subst h1
      exact ⟨rfl, by simpa using hfit, hf.1⟩
  · intro header hdrRes c3 h3
    rw [broadcastToClient] at h3
    split at h3
    · split at h3
      · exact broadcastBody_occupancy _ chunk ws c3 h3
      · exact absurd h3 (by simp)
    · exact broadcastBody_occupancy _ chunk ws c3 h3

/-- C2 witness: the capacity statement applied to a 4-byte buffer: a 5-byte
chunk is rejected and disconnects the client; a 2-byte chunk is accepted
whole; the surviving client after a full broadcast step stays within
capacity. -/
theorem broadcast_buffer_capacity_witness :
    (addToClientBuffer ⟨4, [0, 0, 0, 0], 0, 0, 0, true, 0⟩ [1, 2, 3, 4, 5] = none ∧
     broadcastBody ⟨4, [0, 0, 0, 0], 0, 0, 0, true, 0⟩ [1, 2, 3, 4, 5] [] = none) ∧
    ((⟨4, [1, 2, 0, 0], 2, 0, 2, true, 0⟩ : ClientInfo).dataInBuffer
        = (⟨4, [0, 0, 0, 0], 0, 0, 0, true, 0⟩ : ClientInfo).dataInBuffer
          + ([1, 2] : List ℕ).length ∧
     (⟨4, [1, 2, 0, 0], 2, 0, 2, true, 0⟩ : ClientInfo).dataInBuffer
        ≤ (⟨4, [0, 0, 0, 0], 0, 0, 0, true, 0⟩ : ClientInfo).bufferSize ∧
     (⟨4, [1, 2, 0, 0], 2, 0, 2, true, 0⟩ : ClientInfo).bufferSize
        = (⟨4, [0, 0, 0, 0], 0, 0, 0, true, 0⟩ : ClientInfo).bufferSize) ∧
    ((⟨4, [1, 2, 0, 0], 2, 2, 0, true, 0⟩ : ClientInfo).dataInBuffer
        ≤ (⟨4, [1, 2, 0, 0], 2, 2, 0, true, 0⟩ : ClientInfo).bufferSize) :=
  ⟨(broadcast_buffer_capacity ⟨4, [0, 0, 0, 0], 0, 0, 0, true, 0⟩ [1, 2, 3, 4, 5] []).1
      (by decide),
   (broadcast_buffer_capacity ⟨4, [0, 0, 0, 0], 0, 0, 0, true, 0⟩ [1, 2] [.sent 2]).2.1
      ⟨4, [1, 2, 0, 0], 2, 0, 2, true, 0⟩ (by decide),
   (broadcast_buffer_capacity ⟨4, [0, 0, 0, 0], 0, 0, 0, true, 0⟩ [1, 2] [.sent 2]).2.2.1
      ⟨4, [1, 2, 0, 0], 2, 2, 0, true, 0⟩ (by decide)⟩

/-! ## Claim C6 -/

/-- C6: each iteration of the `FlushClientBuffer` drain loop writes the
largest contiguous run (the minimum of the bytes up to the end of the
buffer and the occupancy), advances the read cursor and lowers the
occupancy by exactly the bytes the socket accepted, resets the failure
counter on success, exits after a partial write, continues after a full
write, exits without requesting disconnection on a would-block result, and
exits requesting disconnection on any other error or on a zero-byte
write. -/
theorem flushClientBuffer_drain_spec (c : ClientInfo) (n : ℕ) (ws : List WriteRes)
    (hd : 0 < c.dataInBuffer) :
    ((advanceRead c n).readPos = (c.readPos + n) % c.bufferSize ∧
     (advanceRead c n).dataInBuffer = c.dataInBuffer - n ∧
     (advanceRead c n).failedSendCount = 0) ∧
    (0 < n → n < min (c.bufferSize - c.readPos) c.dataInBuffer →
       flushLoop c (.sent n :: ws) = (advanceRead c n, false)) ∧
    (0 < n → min (c.bufferSize - c.readPos) c.dataInBuffer ≤ n →
       flushLoop c (.sent n :: ws) = flushLoop (advanceRead c n) ws) ∧
    (flushLoop c (.blockErr :: ws) = (c, false)) ∧
    (flushLoop c (.fatalErr :: ws) = (c, true)) ∧
    (flushLoop c (.sent 0 :: ws) = (c, true)) := by
  have hd2 : ¬ c.dataInBuffer = 0 := Nat.pos_iff_ne_zero.mp hd
  refine ⟨⟨rfl, rfl, rfl⟩, ?_, ?_, ?_, ?_, ?_⟩
  · intro hn hlt
    simp [flushLoop, hd2, hn, hlt]
  · intro hn hge
    simp [flushLoop, hd2, hn, not_lt.mpr hge]
  · simp [flushLoop, hd2]
  · simp [flushLoop, hd2]
  · simp [flushLoop, hd2]

/-- C6 witness: the drain-loop statement applied to a client holding three
bytes, with a partial two-byte write. -/
theorem flushClientBuffer_drain_spec_witness :
    ((advanceRead ⟨4, [1, 2, 3, 0], 3, 0, 3, true, 0⟩ 2).readPos = (0 + 2) % 4 ∧
     (advanceRead ⟨4, [1, 2, 3, 0], 3, 0, 3, true, 0⟩ 2).dataInBuffer = 3 - 2 ∧
     (advanceRead ⟨4, [1, 2, 3, 0], 3, 0, 3, true, 0⟩ 2).failedSendCount = 0) ∧
    (0 < 2 → 2 < min (4 - 0) 3 →
       flushLoop ⟨4, [1, 2, 3, 0], 3, 0, 3, true, 0⟩ [.sent 2]
         = (advanceRead ⟨4, [1, 2, 3, 0], 3, 0, 3, true, 0⟩ 2, false)) ∧
    (0 < 2 → min (4 - 0) 3 ≤ 2 →
       flushLoop ⟨4, [1, 2, 3, 0], 3, 0, 3, true, 0⟩ [.sent 2]
         = flushLoop (advanceRead ⟨4, [1, 2, 3, 0], 3, 0, 3, true, 0⟩ 2) []) ∧
    (flushLoop ⟨4, [1, 2, 3, 0], 3, 0, 3, true, 0⟩ [.blockErr]
       = (⟨4, [1, 2, 3, 0], 3, 0, 3, true, 0⟩, false)) ∧
    (flushLoop ⟨4, [1, 2, 3, 0], 3, 0, 3, true, 0⟩ [.fatalErr]
       = (⟨4, [1, 2, 3, 0], 3, 0, 3, true, 0⟩, true)) ∧
    (flushLoop ⟨4, [1, 2, 3, 0], 3, 0, 3, true, 0⟩ [.sent 0]
       = (⟨4, [1, 2, 3, 0], 3, 0, 3, true, 0⟩, true)) :=
  flushClientBuffer_drain_spec ⟨4, [1, 2, 3, 0], 3, 0, 3, true, 0⟩ 2 [] (by decide)

/-! ## Claim C7 -/

/-- C7: in the per-client step of `BroadcastData`, for a client whose
header-sent flag is false while a nonempty stream header is configured, the
header write happens before any audio bytes; the flag becomes true exactly
when the socket write returned the full header size, and every other return
value (negative, zero, or short) disconnects the client in the same call
without its ring buffer receiving the chunk. -/
theorem broadcast_header_spec (header : List ℕ) (hdrRes : ℤ) (c : ClientInfo)
    (chunk : List ℕ) (ws : List WriteRes)
    (hns : c.headerSent = false) (hcfg : 0 < header.length) :
    (hdrRes = (header.length : ℤ) →
       broadcastToClient header hdrRes c chunk ws
         = broadcastBody { c with headerSent := true } chunk ws) ∧
    (hdrRes ≠ (header.length : ℤ) →
       broadcastToClient header hdrRes c chunk ws = none) := by
  constructor
  · intro heq
    rw [broadcastToClient, if_pos ⟨hns, hcfg⟩, if_pos heq]
  · intro hne
    rw [broadcastToClient, if_pos ⟨hns, hcfg⟩, if_neg hne]

/-- C7 witness: the header statement applied to a one-byte header, once with
the exact write result 1 and once with the short result 0. -/
theorem broadcast_header_spec_witness :
    broadcastToClient [9] 1 ⟨4, [0, 0, 0, 0], 0, 0, 0, false, 0⟩ [1] []
      = broadcastBody { (⟨4, [0, 0, 0, 0], 0, 0, 0, false, 0⟩ : ClientInfo) with
          headerSent := true } [1] [] ∧
    broadcastToClient [9] 0 ⟨4, [0, 0, 0, 0], 0, 0, 0, false, 0⟩ [1] [] = none :=
  ⟨(broadcast_header_spec [9] 1 ⟨4, [0, 0, 0, 0], 0, 0, 0, false, 0⟩ [1] []
      (by decide) (by decide)).1 (by decide),
   (broadcast_header_spec [9] 0 ⟨4, [0, 0, 0, 0], 0, 0, 0, false, 0⟩ [1] []
      (by decide) (by decide)).2 (by decide)⟩

/-! ## Claim C8 -/

/-- C8: `CalculateOptimalSendBuffer` with MIME type `audio/mpeg`, bitrate
128 and buffer multiplier 1.0 returns `128 * 1024 / 8 = 16384`; and for
every MIME type, bitrate, sample rate, channel count and multiplier the
result is the scaled size clamped into `[8192, 524288]` — values below
8192 are raised to 8192 and values above 524288 are lowered to 524288, so
the result always lies in that interval. -/
theorem calculateOptimalSendBuffer_spec :
    (∀ (sr : ℚ) (ch : ℤ), calculateOptimalSendBuffer "audio/mpeg" 128 sr ch 1 = 16384) ∧
    (∀ (mime : String) (br : ℤ) (sr : ℚ) (ch : ℤ) (mult : ℚ),
      calculateOptimalSendBuffer mime br sr ch mult
        = min 524288 (max 8192 (sendBufferScaled mime br sr ch mult)) ∧
      8192 ≤ calculateOptimalSendBuffer mime br sr ch mult ∧
      calculateOptimalSendBuffer mime br sr ch mult ≤ 524288) := by
  have hgen : ∀ (mime : String) (br : ℤ) (sr : ℚ) (ch : ℤ) (mult : ℚ),
      calculateOptimalSendBuffer mime br sr ch mult
        = min 524288 (max 8192 (sendBufferScaled mime br sr ch mult)) := by
    intro mime br sr ch mult
    rw [calculateOptimalSendBuffer]
    split
    · split <;> omega
    · split <;> omega
  refine ⟨?_, fun mime br sr ch mult => ⟨hgen mime br sr ch mult, ?_, ?_⟩⟩
  · intro sr ch
    have hb : sendBufferScaled "audio/mpeg" 128 sr ch 1 = 16384 := by
      rw [sendBufferScaled]
      have h : sendBufferBase "audio/mpeg" 128 sr ch = 16384 := by
        simp [sendBufferBase]
        decide
      rw [h, mul_one]
      exact truncQ_intCast 16384
    rw [hgen, hb]
    omega
  · rw [hgen]
    omega
  · rw [hgen]
    omega

/-! ## Claim C9 -/

/-- C9: when the resampled output of `PCMEncoder::EncodeBuffer`
(`outputFrames * channels * 2` bytes) exceeds the destination capacity, the
call returns 0, writes nothing, and retains nothing for a later call — the
whole converted chunk is discarded and the encoder state is unchanged
(`PCMEncoder` keeps no carry-over buffer). -/
theorem pcmEncodeBuffer_overflow_drops_chunk (st : PCMEncoder.State) (input : AudioInput)
    (inputFrames inputChannels : ℕ) (inputRate outputRate : ℚ)
    (outputChannels outBufferSize F : ℕ)
    (hF : outputFramesFor inputFrames inputRate outputRate = F)
    (hov : outBufferSize < F * outputChannels * 2) :
    PCMEncoder.encodeBuffer st input inputFrames inputChannels inputRate outputRate
      outputChannels outBufferSize = (0, [], st) := by
  rw [PCMEncoder.encodeBuffer, hF, if_pos hov]

/-- Ten frames resampled at equal input and output rates stay ten frames. -/
lemma outputFramesFor_unit_rate (n : ℕ) : outputFramesFor n 1 1 = n := by
  norm_num [outputFramesFor, truncQ]

/-- C9 witness: a 10-frame chunk (40 output bytes at 2 channels) against a
10-byte destination returns 0 and leaves the state unchanged. -/
theorem pcmEncodeBuffer_overflow_drops_chunk_witness :
    PCMEncoder.encodeBuffer ⟨0⟩ (.shortData [0]) 10 1 1 1 2 10 = (0, [], ⟨0⟩) :=
  pcmEncodeBuffer_overflow_drops_chunk ⟨0⟩ (.shortData [0]) 10 1 1 1 2 10 10
    (outputFramesFor_unit_rate 10) (by decide)

/-! ## Claim C3 -/

/-- The overflow branch of the MP3 carry-over bookkeeping
(`NetCastEncoder.cpp` lines 389-401): the old buffered bytes are drained,
and `encoded` is not stored. -/
lemma mp3EncodeBuffer_overflow_branch (st : MP3Encoder.State) (encoded : List ℕ)
    (outCap : ℕ) (h1 : 0 < encoded.length)
    (h2 : st.cap < st.buf.length + encoded.length) :
    MP3Encoder.encodeBuffer st encoded outCap =
      (st.buf.take (min st.buf.length outCap),
        { st with buf := st.buf.drop (min st.buf.length outCap) }) := by
  simp [MP3Encoder.encodeBuffer, h1, h2]

/-- C3 counterexample: the claim that every codec-produced byte not returned
is retained and returned later — "including when the carry-over buffer is
full" — is false.  With 8190 bytes already buffered (capacity 8192, the
size set by `SetOutputFormat`), a call in which the codec produces 3 more
bytes returns 4096 old bytes, keeps 4094 old bytes, and discards the 3 new
bytes entirely: the byte conservation count fails and the produced byte `1`
appears neither in the returned bytes nor in the retained buffer. -/
theorem mp3EncodeBuffer_discards_on_overflow :
    ((MP3Encoder.encodeBuffer ⟨List.replicate 8190 0, 8192⟩ [1, 2, 3] 4096).1.length
        + (MP3Encoder.encodeBuffer ⟨List.replicate 8190 0, 8192⟩ [1, 2, 3] 4096).2.buf.length
      ≠ 8190 + 3) ∧
    (1 : ℕ) ∉ (MP3Encoder.encodeBuffer ⟨List.replicate 8190 0, 8192⟩ [1, 2, 3] 4096).1 ∧
    (1 : ℕ) ∉ (MP3Encoder.encodeBuffer ⟨List.replicate 8190 0, 8192⟩ [1, 2, 3] 4096).2.buf := by
  rw [mp3EncodeBuffer_overflow_branch _ _ _ (by norm_num)
    (by simp only [List.length_replicate, List.length_cons, List.length_nil]; norm_num)]
  rw [show ({ buf := List.replicate 8190 0, cap := 8192 } : MP3Encoder.State).buf
      = List.replicate 8190 (0 : ℕ) from rfl]
  rw [List.length_replicate, List.take_replicate, List.drop_replicate]
  refine ⟨?_, ?_, ?_⟩
  · simp only [List.length_replicate]
    norm_num
  · intro hm
    have := List.eq_of_mem_replicate hm
    norm_num at this
  · intro hm
    have := List.eq_of_mem_replicate hm
    norm_num at this

/-- C3 (amended): `MP3Encoder::EncodeBuffer` returns at most `outBufferSize`
bytes, and the bytes returned are always the oldest carry-over bytes in
order.  When the newly produced codec bytes fit into the carry-over buffer
they are appended and every byte not returned in this call is retained for
a later one; but when appending would overflow the carry-over buffer, the
newly produced bytes are discarded and only up to `outBufferSize` of the
previously buffered bytes are returned. -/
theorem mp3EncodeBuffer_carry_spec (st : MP3Encoder.State) (encoded : List ℕ)
    (outBufferSize : ℕ) :
    (MP3Encoder.encodeBuffer st encoded outBufferSize).1.length ≤ outBufferSize ∧
    (MP3Encoder.encodeBuffer st encoded outBufferSize).2.cap = st.cap ∧
    (st.buf.length + encoded.length ≤ st.cap →
      (MP3Encoder.encodeBuffer st encoded outBufferSize).1
          ++ (MP3Encoder.encodeBuffer st encoded outBufferSize).2.buf
        = st.buf ++ encoded ∧
      (MP3Encoder.encodeBuffer st encoded outBufferSize).1
        = (st.buf ++ encoded).take (min (st.buf.length + encoded.length) outBufferSize)) ∧
    (st.cap < st.buf.length + encoded.length → 0 < encoded.length →
      (MP3Encoder.encodeBuffer st encoded outBufferSize).1
        = st.buf.take (min st.buf.length outBufferSize) ∧
      (MP3Encoder.encodeBuffer st encoded outBufferSize).2.buf
        = st.buf.drop (min st.buf.length outBufferSize)) := by
  rw [MP3Encoder.encodeBuffer]
  rcases Nat.eq_zero_or_pos encoded.length with hz | hpos
  · rw [if_neg (by omega)]
    have henc : encoded = [] := List.eq_nil_of_length_eq_zero hz
    subst henc
    rcases Nat.eq_zero_or_pos st.buf.length with hbz | hbpos
    · rw [if_neg (by omega)]
      have hb : st.buf = [] := List.eq_nil_of_length_eq_zero hbz
      refine ⟨by simp, rfl, ?_, fun _ h2 => absurd h2 (by simp)⟩
      intro _
      simp [hb]
    · rw [if_pos hbpos]
      refine ⟨le_trans (List.length_take_le _ _) (min_le_right _ _), rfl, ?_,
        fun _ h2 => absurd h2 (by simp)⟩
      intro _
      simp only [List.append_nil]
      refine ⟨List.take_append_drop _ _, ?_⟩
      simp
  · rw [if_pos hpos]
    rcases lt_or_ge st.cap (st.buf.length + encoded.length) with hov | hfit
    · rw [if_pos hov]
      exact ⟨le_trans (List.length_take_le _ _) (min_le_right _ _), rfl,
        fun hf => absurd hf (by omega), fun _ _ => ⟨rfl, rfl⟩⟩
    · rw [if_neg (not_lt.mpr hfit)]
      refine ⟨le_trans (List.length_take_le _ _) (min_le_right _ _), rfl, ?_,
        fun hov2 _ => absurd hov2 (by omega)⟩
      intro _
      constructor
      · exact List.take_append_drop _ _
      · simp [List.length_append]

/-- C3 witness: the retention statement applied to one buffered byte and one
newly produced byte with a one-byte destination: nothing is lost and the
oldest byte is returned first. -/
theorem mp3EncodeBuffer_carry_spec_witness :
    (MP3Encoder.encodeBuffer ⟨[5], 8192⟩ [6] 1).1
        ++ (MP3Encoder.encodeBuffer ⟨[5], 8192⟩ [6] 1).2.buf
      = (⟨[5], 8192⟩ : MP3Encoder.State).buf ++ [6] ∧
    (MP3Encoder.encodeBuffer ⟨[5], 8192⟩ [6] 1).1
      = ((⟨[5], 8192⟩ : MP3Encoder.State).buf ++ [6]).take
          (min ((⟨[5], 8192⟩ : MP3Encoder.State).buf.length + ([6] : List ℕ).length) 1) :=
  (mp3EncodeBuffer_carry_spec ⟨[5], 8192⟩ [6] 1).2.2.1 (by decide)

/-! ## Claim C1 -/

/-- A registered client still holding two bytes of audio encoded in the old
output format at the moment of a format change. -/
def staleClient : ClientInfo :=
  ⟨4, [7, 8, 0, 0], 2, 0, 2, true, 0⟩

/-- Node and server state at the moment of a format change: one registered
client with a non-empty ring buffer, PCM codec active. -/
def staleState : NodeState :=
  ⟨[staleClient], prepareWAVHeader 44100 2, "audio/wav", true⟩

/-- C1: evaluation of the format change at the failing input.  The spec
requires `UpdateEncoder` to flush the encoder, broadcast the drained bytes,
and clear every registered client's ring buffer before the next
`BroadcastData`; but `UpdateEncoder` (`NetCastNode.cpp` lines 708-765)
performs none of these steps — `ClearClientBuffers` exists in
`NetCastServer.cpp` yet has no caller — so a client's stale two buffered
bytes survive the format change unchanged, while the intended
`ClearClientBuffers` call would have reset them to zero. -/
theorem updateEncoder_keeps_stale_buffers :
    ((updateEncoder staleState 48000 2).clients = staleState.clients ∧
     (updateEncoder staleState 48000 2).clients.map ClientInfo.dataInBuffer = [2]) ∧
    (clearClientBuffers staleState.clients).map ClientInfo.dataInBuffer = [0] := by
  decide

end NetCast
